import Mathlib

/-!
Formal model of the frame message pipeline and stable-token indexing subsystem
of the glpaly rendering engine.

The producer logic is embedded from src/src/render/message/producer.rs.
The slotmap (IndexMap / IndexToken), the RenderFrame message types and the
bounded single-producer single-consumer channel are parts of the repository
that are not present under src/; they are modelled from the specification
(sections 3, 4.1, 4.2, 5), constrained by their exact usage in producer.rs.

Floating-point payloads (positions, sizes, colors, translations) are never
computed with by this subsystem, only stored and forwarded; the embedding
therefore carries them as an arbitrary scalar type.
-/

namespace Glpaly

/-- Modelled from the spec: utility::slotmap::IndexToken is not under src/.
Tokens are issued by a monotonically increasing token counter, so they are
modelled as natural numbers issued sequentially. -/
abbrev IndexToken := Nat

/-- Modelled from the spec: utility::slotmap::IndexMap is not under src/.
Per spec sections 3 and 4.1 an IndexMap owns a growable mapping from token to
index or a freed marker (the slots list, indexed by token; the token counter
is its length), a free-list of reclaimable indices, and the next never-used
dense index. -/
structure IndexMap where
  slots : List (Option Nat)
  free : List Nat
  next : Nat
deriving DecidableEq, Repr

/-- Modelled from the spec: a fresh IndexMap has no issued tokens, an empty
free-list, and has allocated no dense index yet. -/
def IndexMap.new : IndexMap := ⟨[], [], 0⟩

/-- Modelled from the spec: add() pops a free index when one is available and
otherwise allocates the next integer, assigns a new token (the current value
of the token counter), records the mapping, and returns the token. -/
def IndexMap.add (m : IndexMap) : IndexToken × IndexMap :=
  match m.free with
  | i :: rest => (m.slots.length, ⟨m.slots ++ [some i], rest, m.next⟩)
  | [] => (m.slots.length, ⟨m.slots ++ [some m.next], [], m.next + 1⟩)

/-- Modelled from the spec: get(token) returns the live index, and fails with
InvalidToken (None here) when the token was never issued or has been removed. -/
def IndexMap.get (m : IndexMap) (t : IndexToken) : Option Nat :=
  (m.slots[t]?).join

/-- Modelled from the spec: remove(token) fails with InvalidToken under the
same condition as get; on success it invalidates the token, pushes the freed
index onto the free-list, and returns the freed index. -/
def IndexMap.remove (m : IndexMap) (t : IndexToken) : Option (Nat × IndexMap) :=
  match m.get t with
  | none => none
  | some i => some (i, ⟨m.slots.set t none, i :: m.free, m.next⟩)

/-- In the Rust source get takes a shared reference; as a state transformer it
returns the looked-up value together with the unchanged tracker state. -/
def IndexMap.getOp (m : IndexMap) (t : IndexToken) : Option Nat × IndexMap :=
  (m.get t, m)

/-- Token t has been issued by the tracker: tokens are issued sequentially,
so exactly the tokens below the token counter have been issued. -/
def IndexMap.issuedTok (m : IndexMap) (t : IndexToken) : Prop :=
  t < m.slots.length

/-- Token t was issued and later removed: its slot carries the freed marker. -/
def IndexMap.removedTok (m : IndexMap) (t : IndexToken) : Prop :=
  m.slots[t]? = some none

instance (m : IndexMap) (t : IndexToken) : Decidable (m.issuedTok t) :=
  inferInstanceAs (Decidable (t < m.slots.length))

instance (m : IndexMap) (t : IndexToken) : Decidable (m.removedTok t) :=
  inferInstanceAs (Decidable (m.slots[t]? = some none))

/-- One client-visible tracker operation: an add, or a remove of a token. -/
inductive MapOp
  | add
  | remove (t : IndexToken)
deriving DecidableEq, Repr

/-- Effect of one operation on the tracker state; a remove of an invalid
token fails and leaves the state unchanged. -/
def IndexMap.applyOp (m : IndexMap) : MapOp → IndexMap
  | .add => m.add.2
  | .remove t =>
    match m.remove t with
    | none => m
    | some r => r.2

/-- Run a sequence of tracker operations from a given state. -/
def IndexMap.run (m : IndexMap) (ops : List MapOp) : IndexMap :=
  ops.foldl IndexMap.applyOp m

/-- The tracker invariant: live tokens map to pairwise distinct indices, the
free-list holds distinct already-allocated indices, every live index is
already allocated, and no free index is live. -/
def IndexMap.Inv (m : IndexMap) : Prop :=
  (∀ t1 t2 i, m.get t1 = some i → m.get t2 = some i → t1 = t2) ∧
  m.free.Nodup ∧
  (∀ i ∈ m.free, i < m.next) ∧
  (∀ t i, m.get t = some i → i < m.next) ∧
  (∀ i ∈ m.free, ∀ t, m.get t ≠ some i)

theorem IndexMap.inv_new : IndexMap.new.Inv := by
  refine ⟨?_, ?_, ?_, ?_, ?_⟩ <;> simp [IndexMap.new, IndexMap.get]

theorem IndexMap.get_append_lt (l : List (Option Nat)) (x : Option Nat) (t : Nat)
    (h : t < l.length) : (l ++ [x])[t]? = l[t]? :=
  List.getElem?_append_left h

theorem IndexMap.get_eq_none_of_le (m : IndexMap) (t : IndexToken)
    (h : m.slots.length ≤ t) : m.get t = none := by
  simp [IndexMap.get, List.getElem?_eq_none h]

theorem IndexMap.get_lt_of_some (m : IndexMap) (t : IndexToken) (i : Nat)
    (h : m.get t = some i) : t < m.slots.length := by
  by_contra hc
  rw [m.get_eq_none_of_le t (Nat.le_of_not_lt hc)] at h
  exact Option.noConfusion h

theorem IndexMap.add_token (m : IndexMap) : m.add.1 = m.slots.length := by
  cases hf : m.free <;> simp [IndexMap.add, hf]

theorem IndexMap.add_slots_length (m : IndexMap) :
    m.add.2.slots.length = m.slots.length + 1 := by
  cases hf : m.free <;> simp [IndexMap.add, hf]

theorem IndexMap.add_get_lt (m : IndexMap) (t : IndexToken) (h : t < m.slots.length) :
    m.add.2.get t = m.get t := by
  cases hf : m.free <;>
    simp [IndexMap.add, hf, IndexMap.get, List.getElem?_append_left h]

theorem IndexMap.add_get_token_cons (m : IndexMap) (i : Nat) (rest : List Nat)
    (hf : m.free = i :: rest) : m.add.2.get m.add.1 = some i := by
  simp [IndexMap.add, hf, IndexMap.get, List.getElem?_concat_length]

theorem IndexMap.add_get_token_nil (m : IndexMap) (hf : m.free = []) :
    m.add.2.get m.add.1 = some m.next := by
  simp [IndexMap.add, hf, IndexMap.get, List.getElem?_concat_length]

theorem IndexMap.add_get_cases (m : IndexMap) (t : IndexToken) (j : Nat)
    (h : m.add.2.get t = some j) :
    (t < m.slots.length ∧ m.get t = some j) ∨
      (t = m.slots.length ∧
        ((∃ rest, m.free = j :: rest) ∨ (m.free = [] ∧ j = m.next))) := by
  rcases Nat.lt_trichotomy t m.slots.length with hlt | heq | hgt
  · exact Or.inl ⟨hlt, by rwa [m.add_get_lt t hlt] at h⟩
  · right
    refine ⟨heq, ?_⟩
    cases hf : m.free with
    | nil =>
      right
      refine ⟨rfl, ?_⟩
      have := m.add_get_token_nil hf
      rw [m.add_token, ← heq] at this
      rw [this] at h
      exact (Option.some.inj h).symm
    | cons i rest =>
      left
      have := m.add_get_token_cons i rest hf
      rw [m.add_token, ← heq] at this
      rw [this] at h
      have hij : i = j := Option.some.inj h
      exact ⟨rest, by rw [hij]⟩
  · exfalso
    have hlen : m.add.2.slots.length ≤ t := by
      rw [m.add_slots_length]; omega
    rw [m.add.2.get_eq_none_of_le t hlen] at h
    exact Option.noConfusion h

theorem IndexMap.add_free_cons (m : IndexMap) (i : Nat) (rest : List Nat)
    (hf : m.free = i :: rest) : m.add.2.free = rest := by
  simp [IndexMap.add, hf]

theorem IndexMap.add_free_nil (m : IndexMap) (hf : m.free = []) :
    m.add.2.free = [] := by
  simp [IndexMap.add, hf]

theorem IndexMap.add_next_cons (m : IndexMap) (i : Nat) (rest : List Nat)
    (hf : m.free = i :: rest) : m.add.2.next = m.next := by
  simp [IndexMap.add, hf]

theorem IndexMap.add_next_nil (m : IndexMap) (hf : m.free = []) :
    m.add.2.next = m.next + 1 := by
  simp [IndexMap.add, hf]

theorem IndexMap.remove_eq_some (m : IndexMap) (t : IndexToken) (i : Nat) (m2 : IndexMap)
    (h : m.remove t = some (i, m2)) :
    m.get t = some i ∧ m2.slots = m.slots.set t none ∧
      m2.free = i :: m.free ∧ m2.next = m.next := by
  unfold IndexMap.remove at h
  cases hg : m.get t with
  | none => rw [hg] at h; exact absurd h (by simp)
  | some j =>
    rw [hg] at h
    simp only [Option.some.injEq, Prod.mk.injEq] at h
    obtain ⟨h1, h2⟩ := h
    subst h2
    subst h1
    exact ⟨rfl, rfl, rfl, rfl⟩

theorem IndexMap.remove_get_self (m : IndexMap) (t : IndexToken) (i : Nat) (m2 : IndexMap)
    (h : m.remove t = some (i, m2)) : m2.get t = none := by
  obtain ⟨hg, hs, _, _⟩ := m.remove_eq_some t i m2 h
  have hlt : t < m.slots.length := m.get_lt_of_some t i hg
  simp [IndexMap.get, hs, List.getElem?_set_self hlt]

theorem IndexMap.remove_get_other (m : IndexMap) (t u : IndexToken) (i : Nat)
    (m2 : IndexMap) (h : m.remove t = some (i, m2)) (hne : u ≠ t) :
    m2.get u = m.get u := by
  obtain ⟨_, hs, _, _⟩ := m.remove_eq_some t i m2 h
  simp [IndexMap.get, hs, List.getElem?_set_ne (Ne.symm hne)]

theorem IndexMap.inv_add (m : IndexMap) (h : m.Inv) : m.add.2.Inv := by
  obtain ⟨hinj, hnodup, hfreelt, hlivelt, hfreenl⟩ := h
  cases hf : m.free with
  | nil =>
    refine ⟨?_, ?_, ?_, ?_, ?_⟩
    · intro t1 t2 i h1 h2
      rcases m.add_get_cases t1 i h1 with ⟨hl1, hg1⟩ | ⟨he1, hc1⟩ <;>
        rcases m.add_get_cases t2 i h2 with ⟨hl2, hg2⟩ | ⟨he2, hc2⟩
      · exact hinj t1 t2 i hg1 hg2
      · rcases hc2 with ⟨rest, hr⟩ | ⟨_, hi⟩
        · rw [hf] at hr; exact absurd hr (by simp)
        · exact absurd (hlivelt t1 i hg1) (by omega)
      · rcases hc1 with ⟨rest, hr⟩ | ⟨_, hi⟩
        · rw [hf] at hr; exact absurd hr (by simp)
        · exact absurd (hlivelt t2 i hg2) (by omega)
      · rw [he1, he2]
    · rw [m.add_free_nil hf]; exact List.nodup_nil
    · intro i hi; rw [m.add_free_nil hf] at hi; exact absurd hi (by simp)
    · intro t i hg
      rw [m.add_next_nil hf]
      rcases m.add_get_cases t i hg with ⟨_, hg2⟩ | ⟨_, hc⟩
      · exact Nat.lt_succ_of_lt (hlivelt t i hg2)
      · rcases hc with ⟨rest, hr⟩ | ⟨_, hi⟩
        · rw [hf] at hr; exact absurd hr (by simp)
        · omega
    · intro i hi; rw [m.add_free_nil hf] at hi; exact absurd hi (by simp)
  | cons j rest =>
    refine ⟨?_, ?_, ?_, ?_, ?_⟩
    · intro t1 t2 i h1 h2
      rcases m.add_get_cases t1 i h1 with ⟨hl1, hg1⟩ | ⟨he1, hc1⟩ <;>
        rcases m.add_get_cases t2 i h2 with ⟨hl2, hg2⟩ | ⟨he2, hc2⟩
      · exact hinj t1 t2 i hg1 hg2
      · rcases hc2 with ⟨rest2, hr⟩ | ⟨hnil, _⟩
        · rw [hf] at hr
          exact absurd hg1 (hfreenl i (by rw [hf]; simp [List.cons.inj hr]) t1)
        · rw [hf] at hnil; exact absurd hnil (by simp)
      · rcases hc1 with ⟨rest2, hr⟩ | ⟨hnil, _⟩
        · rw [hf] at hr
          exact absurd hg2 (hfreenl i (by rw [hf]; simp [List.cons.inj hr]) t2)
        · rw [hf] at hnil; exact absurd hnil (by simp)
      · rw [he1, he2]
    · rw [m.add_free_cons j rest hf]
      exact (List.nodup_cons.mp (by rw [← hf]; exact hnodup)).2
    · intro i hi
      rw [m.add_free_cons j rest hf] at hi
      rw [m.add_next_cons j rest hf]
      exact hfreelt i (by rw [hf]; exact List.mem_cons_of_mem j hi)
    · intro t i hg
      rw [m.add_next_cons j rest hf]
      rcases m.add_get_cases t i hg with ⟨_, hg2⟩ | ⟨_, hc⟩
      · exact hlivelt t i hg2
      · rcases hc with ⟨rest2, hr⟩ | ⟨hnil, _⟩
        · rw [hf] at hr
          have : i = j := (List.cons.inj hr).1.symm
          subst this
          exact hfreelt i (by rw [hf]; simp)
        · rw [hf] at hnil; exact absurd hnil (by simp)
    · intro i hi t hg
      rw [m.add_free_cons j rest hf] at hi
      rcases m.add_get_cases t i hg with ⟨_, hg2⟩ | ⟨_, hc⟩
      · exact hfreenl i (by rw [hf]; exact List.mem_cons_of_mem j hi) t hg2
      · rcases hc with ⟨rest2, hr⟩ | ⟨hnil, _⟩
        · rw [hf] at hr
          have hij : i = j := (List.cons.inj hr).1.symm
          have : j ∉ rest := (List.nodup_cons.mp (by rw [← hf]; exact hnodup)).1
          exact this (hij ▸ hi)
        · rw [hf] at hnil; exact absurd hnil (by simp)

theorem IndexMap.inv_remove (m : IndexMap) (t : IndexToken) (i : Nat) (m2 : IndexMap)
    (hr : m.remove t = some (i, m2)) (h : m.Inv) : m2.Inv := by
  obtain ⟨hinj, hnodup, hfreelt, hlivelt, hfreenl⟩ := h
  obtain ⟨hg, _, hfr, hnx⟩ := m.remove_eq_some t i m2 hr
  have hother : ∀ u j, m2.get u = some j → u ≠ t ∧ m.get u = some j := by
    intro u j hu
    by_cases he : u = t
    · subst he
      rw [m.remove_get_self u i m2 hr] at hu
      exact absurd hu (by simp)
    · exact ⟨he, by rwa [m.remove_get_other t u i m2 hr he] at hu⟩
  refine ⟨?_, ?_, ?_, ?_, ?_⟩
  · intro t1 t2 j h1 h2
    exact hinj t1 t2 j (hother t1 j h1).2 (hother t2 j h2).2
  · rw [hfr]
    exact List.nodup_cons.mpr ⟨fun hmem => hfreenl i hmem t hg, hnodup⟩
  · intro j hj
    rw [hfr] at hj
    rw [hnx]
    rcases List.mem_cons.mp hj with hji | hjm
    · exact hji ▸ hlivelt t i hg
    · exact hfreelt j hjm
  · intro u j hu
    rw [hnx]
    exact hlivelt u j (hother u j hu).2
  · intro j hj u hu
    rw [hfr] at hj
    obtain ⟨hne, hgu⟩ := hother u j hu
    rcases List.mem_cons.mp hj with hji | hjm
    · exact hne (hinj u t j hgu (hji ▸ hg))
    · exact hfreenl j hjm u hgu

theorem IndexMap.inv_applyOp (m : IndexMap) (op : MapOp) (h : m.Inv) :
    (m.applyOp op).Inv := by
  cases op with
  | add => exact m.inv_add h
  | remove t =>
    cases hr : m.remove t with
    | none => simpa [IndexMap.applyOp, hr] using h
    | some r =>
      have h2 : m.applyOp (MapOp.remove t) = r.2 := by
        simp [IndexMap.applyOp, hr]
      rw [h2]
      exact m.inv_remove t r.1 r.2 (by rw [hr]) h

theorem IndexMap.inv_run (m : IndexMap) (ops : List MapOp) (h : m.Inv) :
    (m.run ops).Inv := by
  induction ops generalizing m with
  | nil => exact h
  | cons op ops ih => exact ih (m.applyOp op) (m.inv_applyOp op h)

/-- Payload vector with two components; the source stores cgmath Vector2
values without computing on them, so the scalar type is arbitrary. -/
structure Vector2 (α : Type) where
  x : α
  y : α
deriving DecidableEq, Repr

/-- Payload vector with three components, used for the global translation. -/
structure Vector3 (α : Type) where
  x : α
  y : α
  z : α
deriving DecidableEq, Repr

/-- Payload color; the producer stores colors without computing on them, so
the channel type is arbitrary. -/
structure Color (α : Type) where
  r : α
  g : α
  b : α
  a : α
deriving DecidableEq, Repr

/-- Modelled from the spec: the QuadMessage type of render::message is not
under src/; its three variants and their fields are fixed by their
construction sites in producer.rs (create carries no index; update and
remove carry the dense index resolved through the tracker). -/
inductive QuadMessage (α : Type)
  | create (pos size : Vector2 α) (color : Color α)
  | update (id : Nat) (pos size : Vector2 α) (color : Color α)
  | remove (id : Nat)
deriving DecidableEq, Repr

/-- Modelled from the spec: the TriangleMessage type of render::message is
not under src/; variants and fields fixed by producer.rs. -/
inductive TriangleMessage (α : Type)
  | create (pos : Vector2 α) (height : α) (color : Color α)
  | update (id : Nat) (pos : Vector2 α) (height : α) (color : Color α)
  | remove (id : Nat)
deriving DecidableEq, Repr

/-- Modelled from the spec: the SetTranslationMessage type of
render::message is not under src/; its single field is fixed by
producer.rs. -/
structure SetTranslationMessage (α : Type) where
  translation : Vector3 α
deriving DecidableEq, Repr

/-- Modelled from the spec: the RenderFrame type of render::message is not
under src/. Per spec section 3 it is an ordered sequence of commands per
object kind plus an optional single global-translation command; the field
names quads, triangles and translation are fixed by producer.rs. -/
structure RenderFrame (α : Type) where
  quads : List (QuadMessage α)
  triangles : List (TriangleMessage α)
  translation : Option (SetTranslationMessage α)
deriving DecidableEq, Repr

/-- Modelled from the spec: a new RenderFrame is created empty. -/
def RenderFrame.new {α : Type} : RenderFrame α := ⟨[], [], none⟩

/-- State of the producer endpoint, from RenderProducer in producer.rs.
The bounded single-producer single-consumer channel is an external
collaborator; per the spec section 5 contract it is modelled as the FIFO
list of frames pushed so far (the blocking backpressure of a full channel
does not change which frames are delivered, only when). -/
structure RenderProducer (α : Type) where
  render_producer : List (RenderFrame α)
  frame : RenderFrame α
  map_rect : IndexMap
  map_triangle : IndexMap
deriving DecidableEq, Repr

/-- RenderProducer::new with an empty channel, from producer.rs lines 16-23. -/
def RenderProducer.new {α : Type} : RenderProducer α :=
  ⟨[], RenderFrame.new, IndexMap.new, IndexMap.new⟩

/-- RenderProducer::create_rect, from producer.rs lines 25-33: push a Create
command carrying the payload, then allocate a token in the rect tracker and
return it synchronously. -/
def RenderProducer.create_rect {α : Type} (m : RenderProducer α)
    (pos size : Vector2 α) (color : Color α) : IndexToken × RenderProducer α :=
  let message := QuadMessage.create pos size color
  let r := m.map_rect.add
  (r.1, { m with
            frame := { m.frame with quads := m.frame.quads ++ [message] },
            map_rect := r.2 })

/-- RenderProducer::update_rect, from producer.rs lines 35-43: resolve the
token through the rect tracker (failing with InvalidToken when it is not
live) and push an Update command carrying the dense index. -/
def RenderProducer.update_rect {α : Type} (m : RenderProducer α)
    (token : IndexToken) (pos size : Vector2 α) (color : Color α) :
    Option (RenderProducer α) :=
  match m.map_rect.get token with
  | none => none
  | some id =>
    some { m with
             frame := { m.frame with
                          quads := m.frame.quads ++
                            [QuadMessage.update id pos size color] } }

/-- RenderProducer::remove_rect, from producer.rs lines 45-50: remove the
token from the rect tracker (failing with InvalidToken when it is not live)
and push a Remove command carrying the freed dense index. -/
def RenderProducer.remove_rect {α : Type} (m : RenderProducer α)
    (token : IndexToken) : Option (RenderProducer α) :=
  match m.map_rect.remove token with
  | none => none
  | some r =>
    some { m with
             map_rect := r.2,
             frame := { m.frame with
                          quads := m.frame.quads ++ [QuadMessage.remove r.1] } }

/-- RenderProducer::create_triangle, from producer.rs lines 52-60. -/
def RenderProducer.create_triangle {α : Type} (m : RenderProducer α)
    (pos : Vector2 α) (height : α) (color : Color α) :
    IndexToken × RenderProducer α :=
  let message := TriangleMessage.create pos height color
  let r := m.map_triangle.add
  (r.1, { m with
            frame := { m.frame with triangles := m.frame.triangles ++ [message] },
            map_triangle := r.2 })

/-- RenderProducer::update_triangle, from producer.rs lines 62-70. -/
def RenderProducer.update_triangle {α : Type} (m : RenderProducer α)
    (token : IndexToken) (pos : Vector2 α) (height : α) (color : Color α) :
    Option (RenderProducer α) :=
  match m.map_triangle.get token with
  | none => none
  | some id =>
    some { m with
             frame := { m.frame with
                          triangles := m.frame.triangles ++
                            [TriangleMessage.update id pos height color] } }

/-- RenderProducer::remove_triangle, from producer.rs lines 72-77. -/
def RenderProducer.remove_triangle {α : Type} (m : RenderProducer α)
    (token : IndexToken) : Option (RenderProducer α) :=
  match m.map_triangle.remove token with
  | none => none
  | some r =>
    some { m with
             map_triangle := r.2,
             frame := { m.frame with
                          triangles := m.frame.triangles ++
                            [TriangleMessage.remove r.1] } }

/-- RenderProducer::set_translation, from producer.rs lines 79-84: overwrite
the translation command of the in-progress frame. -/
def RenderProducer.set_translation {α : Type} (m : RenderProducer α)
    (translation : Vector3 α) : RenderProducer α :=
  { m with frame := { m.frame with translation := some ⟨translation⟩ } }

/-- RenderProducer::send, from producer.rs lines 86-90: swap the in-progress
frame with a fresh empty one and push the completed frame onto the channel. -/
def RenderProducer.send {α : Type} (m : RenderProducer α) : RenderProducer α :=
  { m with
      frame := RenderFrame.new,
      render_producer := m.render_producer ++ [m.frame] }

/-- One client-visible producer call, used to quantify over call sequences. -/
inductive ProducerOp (α : Type)
  | createRect (pos size : Vector2 α) (color : Color α)
  | updateRect (token : IndexToken) (pos size : Vector2 α) (color : Color α)
  | removeRect (token : IndexToken)
  | createTriangle (pos : Vector2 α) (height : α) (color : Color α)
  | updateTriangle (token : IndexToken) (pos : Vector2 α) (height : α) (color : Color α)
  | removeTriangle (token : IndexToken)
  | setTranslation (translation : Vector3 α)
  | send
deriving DecidableEq, Repr

/-- Effect of one producer call on the producer state; a call that fails
with InvalidToken leaves the state unchanged. -/
def RenderProducer.applyOp {α : Type} (m : RenderProducer α) :
    ProducerOp α → RenderProducer α
  | .createRect pos size color => (m.create_rect pos size color).2
  | .updateRect token pos size color =>
    match m.update_rect token pos size color with
    | none => m
    | some m2 => m2
  | .removeRect token =>
    match m.remove_rect token with
    | none => m
    | some m2 => m2
  | .createTriangle pos height color => (m.create_triangle pos height color).2
  | .updateTriangle token pos height color =>
    match m.update_triangle token pos height color with
    | none => m
    | some m2 => m2
  | .removeTriangle token =>
    match m.remove_triangle token with
    | none => m
    | some m2 => m2
  | .setTranslation translation => m.set_translation translation
  | .send => m.send

/-- Run a sequence of producer calls from a given state. -/
def RenderProducer.runOps {α : Type} (m : RenderProducer α)
    (ops : List (ProducerOp α)) : RenderProducer α :=
  ops.foldl RenderProducer.applyOp m

/-- Number of send calls in a call sequence. -/
def countSends {α : Type} : List (ProducerOp α) → Nat
  | [] => 0
  | .send :: ops => countSends ops + 1
  | .createRect _ _ _ :: ops => countSends ops
  | .updateRect _ _ _ _ :: ops => countSends ops
  | .removeRect _ :: ops => countSends ops
  | .createTriangle _ _ _ :: ops => countSends ops
  | .updateTriangle _ _ _ _ :: ops => countSends ops
  | .removeTriangle _ :: ops => countSends ops
  | .setTranslation _ :: ops => countSends ops

/-- Effect of one producer call on the pending translation command: a
set-translation call overwrites it, every other call leaves it alone. -/
def transStep {α : Type} (acc : Option (SetTranslationMessage α)) :
    ProducerOp α → Option (SetTranslationMessage α)
  | .setTranslation v => some ⟨v⟩
  | _ => acc

/-- Translation command carried by the frame after a call sequence that
started from a frame carrying acc: last set-translation wins. -/
def lastTranslation {α : Type} (ops : List (ProducerOp α))
    (acc : Option (SetTranslationMessage α)) :
    Option (SetTranslationMessage α) :=
  ops.foldl transStep acc

theorem RenderProducer.update_rect_eq_some {α : Type} (m : RenderProducer α)
    (token : IndexToken) (pos size : Vector2 α) (color : Color α) (id : Nat)
    (h : m.map_rect.get token = some id) :
    m.update_rect token pos size color =
      some { m with
               frame := { m.frame with
                            quads := m.frame.quads ++
                              [QuadMessage.update id pos size color] } } := by
  unfold RenderProducer.update_rect
  rw [h]

theorem RenderProducer.remove_rect_eq_some {α : Type} (m : RenderProducer α)
    (token : IndexToken) (r : Nat × IndexMap)
    (h : m.map_rect.remove token = some r) :
    m.remove_rect token =
      some { m with
               map_rect := r.2,
               frame := { m.frame with
                            quads := m.frame.quads ++
                              [QuadMessage.remove r.1] } } := by
  unfold RenderProducer.remove_rect
  rw [h]

theorem RenderProducer.applyOp_render_producer {α : Type} (m : RenderProducer α)
    (op : ProducerOp α) (h : op ≠ ProducerOp.send) :
    (m.applyOp op).render_producer = m.render_producer := by
  cases op with
  | createRect pos size color => rfl
  | updateRect token pos size color =>
    show (match m.update_rect token pos size color with
          | none => m | some m2 => m2).render_producer = m.render_producer
    unfold RenderProducer.update_rect
    cases m.map_rect.get token <;> rfl
  | removeRect token =>
    show (match m.remove_rect token with
          | none => m | some m2 => m2).render_producer = m.render_producer
    unfold RenderProducer.remove_rect
    cases m.map_rect.remove token <;> rfl
  | createTriangle pos height color => rfl
  | updateTriangle token pos height color =>
    show (match m.update_triangle token pos height color with
          | none => m | some m2 => m2).render_producer = m.render_producer
    unfold RenderProducer.update_triangle
    cases m.map_triangle.get token <;> rfl
  | removeTriangle token =>
    show (match m.remove_triangle token with
          | none => m | some m2 => m2).render_producer = m.render_producer
    unfold RenderProducer.remove_triangle
    cases m.map_triangle.remove token <;> rfl
  | setTranslation translation => rfl
  | send => exact absurd rfl h

theorem RenderProducer.applyOp_translation {α : Type} (m : RenderProducer α)
    (op : ProducerOp α) (h : op ≠ ProducerOp.send) :
    (m.applyOp op).frame.translation = transStep m.frame.translation op := by
  cases op with
  | createRect pos size color => rfl
  | updateRect token pos size color =>
    show (match m.update_rect token pos size color with
          | none => m | some m2 => m2).frame.translation = m.frame.translation
    unfold RenderProducer.update_rect
    cases m.map_rect.get token <;> rfl
  | removeRect token =>
    show (match m.remove_rect token with
          | none => m | some m2 => m2).frame.translation = m.frame.translation
    unfold RenderProducer.remove_rect
    cases m.map_rect.remove token <;> rfl
  | createTriangle pos height color => rfl
  | updateTriangle token pos height color =>
    show (match m.update_triangle token pos height color with
          | none => m | some m2 => m2).frame.translation = m.frame.translation
    unfold RenderProducer.update_triangle
    cases m.map_triangle.get token <;> rfl
  | removeTriangle token =>
    show (match m.remove_triangle token with
          | none => m | some m2 => m2).frame.translation = m.frame.translation
    unfold RenderProducer.remove_triangle
    cases m.map_triangle.remove token <;> rfl
  | setTranslation translation => rfl
  | send => exact absurd rfl h

theorem RenderProducer.runOps_render_producer {α : Type} (m : RenderProducer α)
    (ops : List (ProducerOp α)) (h : ∀ op ∈ ops, op ≠ ProducerOp.send) :
    (m.runOps ops).render_producer = m.render_producer := by
  induction ops generalizing m with
  | nil => rfl
  | cons op ops ih =>
    show ((m.applyOp op).runOps ops).render_producer = m.render_producer
    rw [ih (m.applyOp op) (fun o ho => h o (List.mem_cons_of_mem op ho)),
      m.applyOp_render_producer op (h op (List.mem_cons_self op ops))]

theorem RenderProducer.runOps_translation {α : Type} (m : RenderProducer α)
    (ops : List (ProducerOp α)) (h : ∀ op ∈ ops, op ≠ ProducerOp.send) :
    (m.runOps ops).frame.translation = lastTranslation ops m.frame.translation := by
  induction ops generalizing m with
  | nil => rfl
  | cons op ops ih =>
    show ((m.applyOp op).runOps ops).frame.translation =
      lastTranslation ops (transStep m.frame.translation op)
    rw [ih (m.applyOp op) (fun o ho => h o (List.mem_cons_of_mem op ho)),
      m.applyOp_translation op (h op (List.mem_cons_self op ops))]

theorem lastTranslation_of_no_set {α : Type} (ops : List (ProducerOp α))
    (acc : Option (SetTranslationMessage α))
    (h : ∀ op ∈ ops, ∀ v, op ≠ ProducerOp.setTranslation v) :
    lastTranslation ops acc = acc := by
  induction ops generalizing acc with
  | nil => rfl
  | cons op ops ih =>
    have hstep : transStep acc op = acc := by
      cases op with
      | setTranslation v => exact absurd rfl (h _ (List.mem_cons_self _ ops) v)
      | _ => rfl
    show lastTranslation ops (transStep acc op) = acc
    rw [hstep]
    exact ih acc (fun o ho => h o (List.mem_cons_of_mem op ho))

theorem countSends_cons_non_send {α : Type} (op : ProducerOp α)
    (ops : List (ProducerOp α)) (h : op ≠ ProducerOp.send) :
    countSends (op :: ops) = countSends ops := by
  cases op with
  | send => exact absurd rfl h
  | _ => rfl

theorem IndexMap.applyOp_removed_slot (m : IndexMap) (t : IndexToken) (op : MapOp)
    (h : m.slots[t]? = some none) : (m.applyOp op).slots[t]? = some none := by
  have hlt : t < m.slots.length := (List.getElem?_eq_some_iff.mp h).1
  cases op with
  | add =>
    show m.add.2.slots[t]? = some none
    cases hf : m.free with
    | nil =>
      simp only [IndexMap.add, hf]
      rw [List.getElem?_append_left hlt]
      exact h
    | cons i rest =>
      simp only [IndexMap.add, hf]
      rw [List.getElem?_append_left hlt]
      exact h
  | remove u =>
    cases hrem : m.remove u with
    | none => simpa [IndexMap.applyOp, hrem] using h
    | some r =>
      have h2 : m.applyOp (MapOp.remove u) = r.2 := by
        simp [IndexMap.applyOp, hrem]
      rw [h2]
      obtain ⟨hg, hs, _, _⟩ := m.remove_eq_some u r.1 r.2 (by rw [hrem])
      rw [hs]
      by_cases he : u = t
      · subst he
        exact List.getElem?_set_self (m.get_lt_of_some u r.1 hg)
      · rw [List.getElem?_set_ne he]
        exact h

theorem IndexMap.run_removed_slot (m : IndexMap) (t : IndexToken) (ops : List MapOp)
    (h : m.slots[t]? = some none) : (m.run ops).slots[t]? = some none := by
  induction ops generalizing m with
  | nil => exact h
  | cons op ops ih => exact ih (m.applyOp op) (m.applyOp_removed_slot t op h)

/-- C1: for every sequence of add and remove operations run on a fresh
IndexTracker, at every point of the sequence the mapping from currently-live
tokens to dense indices is injective: two live tokens that resolve through
get to the same index are the same token. -/
theorem claim_C1_live_tokens_injective (ops : List MapOp) (t1 t2 i : Nat)
    (h1 : (IndexMap.new.run ops).get t1 = some i)
    (h2 : (IndexMap.new.run ops).get t2 = some i) : t1 = t2 :=
  (IndexMap.inv_run IndexMap.new ops IndexMap.inv_new).1 t1 t2 i h1 h2

theorem claim_C1_witness :
    (IndexMap.new.run [MapOp.add, MapOp.add, MapOp.remove 0, MapOp.add]).get 2 =
      some 0 ∧ (2 : Nat) = 2 :=
  ⟨by decide,
   claim_C1_live_tokens_injective [MapOp.add, MapOp.add, MapOp.remove 0, MapOp.add]
     2 2 0 (by decide) (by decide)⟩

/-- C2: get and remove fail with InvalidToken exactly when the token was
never issued or was already removed; after one successful remove of a token,
every later get or remove of that token fails no matter what operations run
in between; and get is side-effect-free. -/
theorem claim_C2_invalid_token_iff (m : IndexMap) (t : IndexToken) :
    (m.get t = none ↔ ¬m.issuedTok t ∨ m.removedTok t) ∧
    (m.remove t = none ↔ m.get t = none) ∧
    (∀ i m2, m.remove t = some (i, m2) →
      ∀ ops, (m2.run ops).get t = none ∧ (m2.run ops).remove t = none) ∧
    m.getOp t = (m.get t, m) := by
  have hremget : ∀ m3 : IndexMap, m3.remove t = none ↔ m3.get t = none := by
    intro m3
    unfold IndexMap.remove
    cases hg : m3.get t <;> simp
  refine ⟨?_, hremget m, ?_, rfl⟩
  · cases hs : m.slots[t]? with
    | none =>
      have hlen : m.slots.length ≤ t := List.getElem?_eq_none_iff.mp hs
      constructor
      · intro _
        exact Or.inl (fun hi => Nat.lt_irrefl t (Nat.lt_of_lt_of_le hi hlen))
      · intro _
        simp [IndexMap.get, hs]
    | some o =>
      cases o with
      | none =>
        constructor
        · intro _
          exact Or.inr hs
        · intro _
          simp [IndexMap.get, hs]
      | some i =>
        have hlt : t < m.slots.length := (List.getElem?_eq_some_iff.mp hs).1
        constructor
        · intro hg
          simp [IndexMap.get, hs] at hg
        · rintro (hni | hrm)
          · exact absurd hlt (by simpa [IndexMap.issuedTok] using hni)
          · simp only [IndexMap.removedTok, hs] at hrm
            exact absurd hrm (by simp)
  · intro i m2 hrem ops
    obtain ⟨hg, hs, _, _⟩ := m.remove_eq_some t i m2 hrem
    have hlt : t < m.slots.length := m.get_lt_of_some t i hg
    have hslot : m2.slots[t]? = some none := by
      rw [hs]
      exact List.getElem?_set_self hlt
    have hrun := m2.run_removed_slot t ops hslot
    have hget : (m2.run ops).get t = none := by
      simp [IndexMap.get, hrun]
    exact ⟨hget, (hremget (m2.run ops)).mpr hget⟩

theorem claim_C2_witness :
    ((⟨[none], [0], 1⟩ : IndexMap).run [MapOp.add]).get 0 = none ∧
    ((⟨[none], [0], 1⟩ : IndexMap).run [MapOp.add]).remove 0 = none :=
  (claim_C2_invalid_token_iff (IndexMap.new.run [MapOp.add]) 0).2.2.1
    0 (⟨[none], [0], 1⟩ : IndexMap) (by decide) [MapOp.add]

/-- C3: from a fresh producer, three create_rect calls yield tokens 0, 1, 2
at dense indices 0, 1, 2; removing the second token frees index 1; a fourth
create_rect yields fresh token 3 which reuses index 1; and send delivers
exactly one frame whose quad command list is, in program order, three Create
commands, one Remove of index 1, and one Create. -/
theorem claim_C3_concrete_reuse_frame :
    (let q : Vector2 Nat := ⟨0, 0⟩
     let c : Color Nat := ⟨0, 0, 0, 0⟩
     let r1 := (RenderProducer.new : RenderProducer Nat).create_rect q q c
     let r2 := r1.2.create_rect q q c
     let r3 := r2.2.create_rect q q c
     r1.1 = 0 ∧ r2.1 = 1 ∧ r3.1 = 2 ∧
     r3.2.map_rect.get r1.1 = some 0 ∧
     r3.2.map_rect.get r2.1 = some 1 ∧
     r3.2.map_rect.get r3.1 = some 2 ∧
     (r3.2.remove_rect r2.1).map
         (fun s4 =>
           let r5 := s4.create_rect q q c
           (r5.1, r5.2.map_rect.get r5.1, r5.2.map_rect.get r2.1,
            r5.2.send.render_producer)) =
       some (3, some 1, none,
         [⟨[QuadMessage.create q q c, QuadMessage.create q q c,
            QuadMessage.create q q c, QuadMessage.remove 1,
            QuadMessage.create q q c], [], none⟩])) := by
  decide

/-- C4: send replaces the in-progress frame with a fresh empty one and
enqueues exactly the accumulated frame; after send the in-progress frame has
no commands and no translation; and no mutation call ever writes to the
channel, so a mutation issued after a send can only appear in a frame
enqueued by a later send. -/
theorem claim_C4_send_swap (α : Type) (m : RenderProducer α) :
    m.send.frame = RenderFrame.new ∧
    m.send.render_producer = m.render_producer ++ [m.frame] ∧
    m.send.frame.quads = [] ∧
    m.send.frame.triangles = [] ∧
    m.send.frame.translation = none ∧
    (∀ (m2 : RenderProducer α) (op : ProducerOp α), op ≠ ProducerOp.send →
      (m2.applyOp op).render_producer = m2.render_producer) :=
  ⟨rfl, rfl, rfl, rfl, rfl, fun m2 op h => m2.applyOp_render_producer op h⟩

theorem claim_C4_witness :
    ((RenderProducer.new : RenderProducer Nat).send.applyOp
        (ProducerOp.setTranslation ⟨0, 0, 0⟩)).render_producer =
      (RenderProducer.new : RenderProducer Nat).send.render_producer ∧
    (RenderProducer.new : RenderProducer Nat).send.frame = RenderFrame.new :=
  ⟨(claim_C4_send_swap Nat RenderProducer.new).2.2.2.2.2
      (RenderProducer.new : RenderProducer Nat).send
      (ProducerOp.setTranslation ⟨0, 0, 0⟩) (by decide),
   (claim_C4_send_swap Nat RenderProducer.new).1⟩

/-- C5: each quad mutation appends exactly one command at the end of the quad
command list of the in-progress frame, so the list sent by send preserves
program order; in the concrete scenario create then update then remove of
one rect before a single send, the frame holds exactly one Create, one
Update and one Remove for the resolved index, in that order. -/
theorem claim_C5_program_order (α : Type) (m : RenderProducer α)
    (pos size : Vector2 α) (color : Color α) :
    ((m.create_rect pos size color).2.frame.quads =
      m.frame.quads ++ [QuadMessage.create pos size color]) ∧
    (∀ token id, m.map_rect.get token = some id →
      m.update_rect token pos size color =
        some { m with
                 frame := { m.frame with
                              quads := m.frame.quads ++
                                [QuadMessage.update id pos size color] } }) ∧
    (∀ token r, m.map_rect.remove token = some r →
      m.remove_rect token =
        some { m with
                 map_rect := r.2,
                 frame := { m.frame with
                              quads := m.frame.quads ++
                                [QuadMessage.remove r.1] } }) ∧
    ((((RenderProducer.new : RenderProducer Nat).create_rect ⟨0, 0⟩ ⟨0, 0⟩
          ⟨0, 0, 0, 0⟩).2.update_rect
        ((RenderProducer.new : RenderProducer Nat).create_rect ⟨0, 0⟩ ⟨0, 0⟩
          ⟨0, 0, 0, 0⟩).1 ⟨1, 1⟩ ⟨1, 1⟩ ⟨1, 1, 1, 1⟩).bind
      (fun s2 =>
        (s2.remove_rect
          ((RenderProducer.new : RenderProducer Nat).create_rect ⟨0, 0⟩ ⟨0, 0⟩
            ⟨0, 0, 0, 0⟩).1).map
          (fun s3 => s3.send.render_producer)) =
      some [⟨[QuadMessage.create ⟨0, 0⟩ ⟨0, 0⟩ ⟨0, 0, 0, 0⟩,
              QuadMessage.update 0 ⟨1, 1⟩ ⟨1, 1⟩ ⟨1, 1, 1, 1⟩,
              QuadMessage.remove 0], [], none⟩]) := by
  refine ⟨rfl, ?_, ?_, by decide⟩
  · intro token id h
    exact m.update_rect_eq_some token pos size color id h
  · intro token r h
    exact m.remove_rect_eq_some token r h

theorem claim_C5_witness :
    ((RenderProducer.new : RenderProducer Nat).create_rect ⟨0, 0⟩ ⟨0, 0⟩
        ⟨0, 0, 0, 0⟩).2.update_rect 0 ⟨1, 1⟩ ⟨1, 1⟩ ⟨1, 1, 1, 1⟩ =
      some { ((RenderProducer.new : RenderProducer Nat).create_rect ⟨0, 0⟩ ⟨0, 0⟩
                ⟨0, 0, 0, 0⟩).2 with
               frame := { ((RenderProducer.new : RenderProducer Nat).create_rect
                             ⟨0, 0⟩ ⟨0, 0⟩ ⟨0, 0, 0, 0⟩).2.frame with
                            quads := ((RenderProducer.new : RenderProducer Nat).create_rect
                                ⟨0, 0⟩ ⟨0, 0⟩ ⟨0, 0, 0, 0⟩).2.frame.quads ++
                              [QuadMessage.update 0 ⟨1, 1⟩ ⟨1, 1⟩ ⟨1, 1, 1, 1⟩] } } :=
  (claim_C5_program_order Nat
      ((RenderProducer.new : RenderProducer Nat).create_rect ⟨0, 0⟩ ⟨0, 0⟩
        ⟨0, 0, 0, 0⟩).2 ⟨1, 1⟩ ⟨1, 1⟩ ⟨1, 1, 1, 1⟩).2.1 0 0 (by decide)

/-- C6: on any reachable tracker state, add assigns the dense index by
reuse-first-fit: the head of the free list when it is non-empty, otherwise
the next unused integer (an index no live token maps to and that is not on
the free list); the returned token is fresh, distinct from every token
issued before; in particular an add right after a successful remove assigns
the freed index to the new token, and the new token differs from the removed
one. -/
theorem claim_C6_add_reuse_first_fit (ops : List MapOp) (s : IndexMap)
    (hs : s = IndexMap.new.run ops) :
    (∀ i rest, s.free = i :: rest → s.add.2.get s.add.1 = some i) ∧
    (s.free = [] → s.add.2.get s.add.1 = some s.next) ∧
    (∀ t, s.get t ≠ some s.next) ∧
    s.next ∉ s.free ∧
    (∀ t, s.issuedTok t → s.add.1 ≠ t) ∧
    (∀ t i s2, s.remove t = some (i, s2) →
      s2.add.2.get s2.add.1 = some i ∧ s2.add.1 ≠ t) := by
  have hinv : s.Inv := hs ▸ IndexMap.inv_run IndexMap.new ops IndexMap.inv_new
  obtain ⟨hinj, hnodup, hfreelt, hlivelt, hfreenl⟩ := hinv
  refine ⟨?_, ?_, ?_, ?_, ?_, ?_⟩
  · intro i rest hf
    exact s.add_get_token_cons i rest hf
  · intro hf
    exact s.add_get_token_nil hf
  · intro t hget
    exact Nat.lt_irrefl s.next (hlivelt t s.next hget)
  · intro hmem
    exact Nat.lt_irrefl s.next (hfreelt s.next hmem)
  · intro t ht heq
    rw [s.add_token] at heq
    simp only [IndexMap.issuedTok] at ht
    rw [heq] at ht
    exact Nat.lt_irrefl t ht
  · intro t i s2 hrem
    obtain ⟨hg, hslots, hfr, _⟩ := s.remove_eq_some t i s2 hrem
    refine ⟨s2.add_get_token_cons i s.free hfr, ?_⟩
    intro heq
    rw [s2.add_token, hslots, List.length_set] at heq
    have hlt := s.get_lt_of_some t i hg
    rw [heq] at hlt
    exact Nat.lt_irrefl t hlt

theorem claim_C6_witness :
    (IndexMap.new.run [MapOp.add, MapOp.add, MapOp.remove 0]).add.2.get
        (IndexMap.new.run [MapOp.add, MapOp.add, MapOp.remove 0]).add.1 =
      some 0 ∧
    (IndexMap.new.run [MapOp.add, MapOp.add, MapOp.remove 0]).add.1 ≠ 0 :=
  ⟨(claim_C6_add_reuse_first_fit [MapOp.add, MapOp.add, MapOp.remove 0]
      (IndexMap.new.run [MapOp.add, MapOp.add, MapOp.remove 0]) rfl).1
      0 [] (by decide),
   (claim_C6_add_reuse_first_fit [MapOp.add, MapOp.add, MapOp.remove 0]
      (IndexMap.new.run [MapOp.add, MapOp.add, MapOp.remove 0]) rfl).2.2.2.2.1
      0 (by decide)⟩

/-- C7: set_translation is last-write-wins within a frame: starting at a
frame boundary (no pending translation), after any send-free call sequence
the frame that the next send enqueues carries exactly the translation of the
last set-translation call, and carries none when no such call was made. -/
theorem claim_C7_translation_last_write (α : Type) (m : RenderProducer α)
    (ops : List (ProducerOp α))
    (hns : ∀ op ∈ ops, op ≠ ProducerOp.send)
    (hclean : m.frame.translation = none) :
    ((m.runOps ops).send.render_producer =
      m.render_producer ++ [(m.runOps ops).frame]) ∧
    (m.runOps ops).frame.translation = lastTranslation ops none ∧
    ((∀ op ∈ ops, ∀ v, op ≠ ProducerOp.setTranslation v) →
      (m.runOps ops).frame.translation = none) := by
  refine ⟨?_, ?_, ?_⟩
  · show (m.runOps ops).render_producer ++ [(m.runOps ops).frame] =
      m.render_producer ++ [(m.runOps ops).frame]
    rw [m.runOps_render_producer ops hns]
  · rw [m.runOps_translation ops hns, hclean]
  · intro hnoset
    rw [m.runOps_translation ops hns, hclean]
    exact lastTranslation_of_no_set ops none hnoset

theorem claim_C7_witness :
    ((RenderProducer.new : RenderProducer Nat).runOps
        [ProducerOp.setTranslation ⟨1, 2, 3⟩,
         ProducerOp.setTranslation ⟨4, 5, 6⟩]).frame.translation =
      lastTranslation
        [ProducerOp.setTranslation ⟨1, 2, 3⟩,
         ProducerOp.setTranslation ⟨4, 5, 6⟩] none ∧
    lastTranslation
        [ProducerOp.setTranslation (⟨1, 2, 3⟩ : Vector3 Nat),
         ProducerOp.setTranslation ⟨4, 5, 6⟩] none = some ⟨⟨4, 5, 6⟩⟩ :=
  ⟨(claim_C7_translation_last_write Nat RenderProducer.new
      [ProducerOp.setTranslation ⟨1, 2, 3⟩, ProducerOp.setTranslation ⟨4, 5, 6⟩]
      (by decide) rfl).2.1,
   by decide⟩

/-- C8: with the channel modelled as the FIFO list of pushed frames, running
any call sequence only appends to the channel: the frames already enqueued
are kept unchanged and in order, and exactly one new frame is appended per
send call, so a consumer draining the queue front-to-back observes exactly
countSends frames, each once, in send order. -/
theorem claim_C8_fifo_exactly_once (α : Type) (m : RenderProducer α)
    (ops : List (ProducerOp α)) :
    ∃ tail, (m.runOps ops).render_producer = m.render_producer ++ tail ∧
      tail.length = countSends ops := by
  induction ops generalizing m with
  | nil => exact ⟨[], by simp [RenderProducer.runOps], rfl⟩
  | cons op ops ih =>
    by_cases hop : op = ProducerOp.send
    · subst hop
      obtain ⟨tail, htl, hlen⟩ := ih m.send
      refine ⟨m.frame :: tail, ?_, ?_⟩
      · show ((m.send).runOps ops).render_producer =
          m.render_producer ++ m.frame :: tail
        rw [htl]
        show (m.render_producer ++ [m.frame]) ++ tail =
          m.render_producer ++ m.frame :: tail
        simp
      · show tail.length + 1 = countSends ops + 1
        omega
    · obtain ⟨tail, htl, hlen⟩ := ih (m.applyOp op)
      refine ⟨tail, ?_, ?_⟩
      · show ((m.applyOp op).runOps ops).render_producer =
          m.render_producer ++ tail
        rw [htl, m.applyOp_render_producer op hop]
      · rw [countSends_cons_non_send op ops hop]
        exact hlen

/-- C9: a send issued with no mutation calls since the previous send still
enqueues a frame, and that frame has empty command lists for both kinds and
no translation command. -/
theorem claim_C9_empty_frame_sent (α : Type) (m : RenderProducer α) :
    m.send.send.render_producer =
      m.render_producer ++ [m.frame, RenderFrame.new] ∧
    (RenderFrame.new : RenderFrame α).quads = [] ∧
    (RenderFrame.new : RenderFrame α).triangles = [] ∧
    (RenderFrame.new : RenderFrame α).translation = none ∧
    m.send.send.render_producer.length = m.render_producer.length + 2 := by
  refine ⟨?_, rfl, rfl, rfl, ?_⟩
  · show (m.render_producer ++ [m.frame]) ++ [RenderFrame.new] =
      m.render_producer ++ [m.frame, RenderFrame.new]
    simp
  · show ((m.render_producer ++ [m.frame]) ++ [RenderFrame.new]).length =
      m.render_producer.length + 2
    simp

/-- C10: send leaves both IndexTrackers untouched, byte for byte, and hence
every token resolves to the same index before and after any number of frame
boundaries: a live token stays live at its index and an invalid token stays
invalid. -/
theorem claim_C10_send_preserves_trackers (α : Type) (m : RenderProducer α)
    (n : Nat) :
    m.send.map_rect = m.map_rect ∧
    m.send.map_triangle = m.map_triangle ∧
    (∀ t, m.send.map_rect.get t = m.map_rect.get t) ∧
    (∀ t, m.send.map_triangle.get t = m.map_triangle.get t) ∧
    (RenderProducer.send^[n] m).map_rect = m.map_rect ∧
    (RenderProducer.send^[n] m).map_triangle = m.map_triangle := by
  refine ⟨rfl, rfl, fun t => rfl, fun t => rfl, ?_, ?_⟩
  · induction n with
    | zero => rfl
    | succ k ih =>
      rw [Function.iterate_succ_apply']
      exact ih
  · induction n with
    | zero => rfl
    | succ k ih =>
      rw [Function.iterate_succ_apply']
      exact ih

end Glpaly
